import Mathlib

set_option maxHeartbeats 1000000

/-!
Verification development for the android-action-kernel repository.

The embedding below translates the core of src/kernel.py and the entry
point src/federal_upi.py into Lean definitions:

* `Json` models values decoded by the Python json module.
* `json_loads` models `json.loads` on the subset of JSON this program
  exchanges (objects, arrays, strings with the usual escapes, integers,
  booleans, null).  Float literals are outside the modelled subset; the
  action wire format of this program uses only integer literals.
* `findBraceMatch` models the regex search `re.search` for the pattern
  of one open brace, a run of non-brace characters, and one close brace,
  as used by the malformed-response recovery in `get_llm_decision`.
* `parse_decision` models the response-text normalization of
  `get_llm_decision` for each provider branch.
* `execute_action` models `execute_action`, returning the sequence of
  device-bridge commands it issues, the process-exit outcome of the
  "done" branch, or the Python exception it raises.
* `run_agent` models the loop of `run_agent` over an explicit
  environment (screen captures per step) and a decision function.
* `federal_upi_entry` models the module-level import of
  src/federal_upi.py.

Console printing is pure logging in the source and is not recorded.
The external sanitizer module (not part of the two source files) is an
abstract function in the environment; no claim depends on its output.
-/

/-- JSON values as decoded by the Python json module: objects keep key
insertion order (later duplicate keys overwrite earlier ones, as in a
Python dict); numbers are modelled as integers, since the action wire
format of this program uses only integer literals. -/
inductive Json where
| null : Json
| bool (b : Bool) : Json
| num (n : Int) : Json
| str (s : String) : Json
| arr (elems : List Json) : Json
| obj (kvs : List (String × Json)) : Json

/-- Lookup of a key in a decoded JSON object, as a Python dict lookup.
Keys are unique by construction of the parser. -/
def lookupKV : List (String × Json) → String → Option Json
| [], _ => none
| kv :: rest, key => if kv.1 = key then some kv.2 else lookupKV rest key

/-- Python dict.get(key) on a decoded JSON value: none when the key is
absent.  Non-object values raise AttributeError in Python at the call
sites, which guard for that case explicitly. -/
def Json.get : Json → String → Option Json
| Json.obj kvs, key => lookupKV kvs key
| _, _ => none

/-- The open-brace character, kept as a named constant. -/
def lbraceC : Char := Char.ofNat 123

/-- The close-brace character, kept as a named constant. -/
def rbraceC : Char := Char.ofNat 125

/-- Whitespace accepted between JSON tokens by the Python json module. -/
def isJsonWs (c : Char) : Bool := c = ' ' || c = '\t' || c = '\n' || c = '\r'

/-- Drop leading JSON whitespace. -/
def skipWs : List Char → List Char
| [] => []
| c :: rest => if isJsonWs c then skipWs rest else c :: rest

/-- Value of a hexadecimal digit, if any. -/
def hexVal (c : Char) : Option Nat :=
  if c.isDigit then some (c.toNat - 48)
  else if 'a' ≤ c ∧ c ≤ 'f' then some (c.toNat - 87)
  else if 'A' ≤ c ∧ c ≤ 'F' then some (c.toNat - 55)
  else none

/-- Body of a JSON string literal after the opening quote: scans until the
closing quote, decoding the escapes the Python json module accepts and
rejecting unescaped control characters (strict mode, the default). -/
def parseStringBody (acc : List Char) : List Char → Except String (String × List Char)
| [] => .error "Unterminated string"
| c :: rest =>
  if c = '"' then .ok (String.mk acc.reverse, rest)
  else if c = '\\' then
    match rest with
    | [] => .error "Unterminated string"
    | e :: rest2 =>
      if e = '"' then parseStringBody ('"' :: acc) rest2
      else if e = '\\' then parseStringBody ('\\' :: acc) rest2
      else if e = '/' then parseStringBody ('/' :: acc) rest2
      else if e = 'n' then parseStringBody ('\n' :: acc) rest2
      else if e = 't' then parseStringBody ('\t' :: acc) rest2
      else if e = 'r' then parseStringBody ('\r' :: acc) rest2
      else if e = 'b' then parseStringBody (Char.ofNat 8 :: acc) rest2
      else if e = 'f' then parseStringBody (Char.ofNat 12 :: acc) rest2
      else if e = 'u' then
        match rest2 with
        | h1 :: h2 :: h3 :: h4 :: rest3 =>
          match hexVal h1, hexVal h2, hexVal h3, hexVal h4 with
          | some a, some b, some c2, some d =>
            parseStringBody (Char.ofNat (a * 4096 + b * 256 + c2 * 16 + d) :: acc) rest3
          | _, _, _, _ => .error "Invalid hex escape"
        | _ => .error "Invalid hex escape"
      else .error "Invalid escape"
  else if c.toNat < 32 then .error "Invalid control character"
  else parseStringBody (c :: acc) rest

/-- Take a maximal run of decimal digits. -/
def takeDigits : List Char → List Char × List Char
| [] => ([], [])
| c :: rest =>
  if c.isDigit then
    let p := takeDigits rest
    (c :: p.1, p.2)
  else ([], c :: rest)

/-- Accumulate decimal digits into a natural number. -/
def digitsToNat : Nat → List Char → Nat
| acc, [] => acc
| acc, c :: rest => digitsToNat (acc * 10 + (c.toNat - 48)) rest

/-- Whether the remainder starts a fractional part, per the number grammar
of the Python json module (a dot followed by a digit). -/
def isFracStart : List Char → Bool
| '.' :: c :: _ => c.isDigit
| _ => false

/-- Whether the remainder starts an exponent part, per the number grammar
of the Python json module. -/
def isExpStart : List Char → Bool
| 'e' :: '+' :: c :: _ => c.isDigit
| 'e' :: '-' :: c :: _ => c.isDigit
| 'e' :: c :: _ => c.isDigit
| 'E' :: '+' :: c :: _ => c.isDigit
| 'E' :: '-' :: c :: _ => c.isDigit
| 'E' :: c :: _ => c.isDigit
| _ => false

/-- Reject a float literal; otherwise return the integer value.  Floats
never occur in the action wire format of this program. -/
def floatCheck (n : Nat) (rest : List Char) : Except String (Nat × List Char) :=
  if isFracStart rest || isExpStart rest then
    .error "float literals are outside the modelled JSON subset"
  else .ok (n, rest)

/-- Integer part of a JSON number: either a single zero or a nonzero digit
followed by digits, as in the number grammar of the Python json module. -/
def intCore (l : List Char) : Except String (Nat × List Char) :=
  match l with
  | '0' :: rest => floatCheck 0 rest
  | _ =>
    let p := takeDigits l
    if p.1.isEmpty then .error "Expecting value"
    else floatCheck (digitsToNat 0 p.1) p.2

/-- A JSON number starting at the head of the input (optional minus sign,
then the integer grammar). -/
def parseIntBody (l : List Char) : Except String (Json × List Char) :=
  match l with
  | '-' :: rest =>
    match intCore rest with
    | .ok (n, r) => .ok (Json.num (-(n : Int)), r)
    | .error e => .error e
  | _ =>
    match intCore l with
    | .ok (n, r) => .ok (Json.num (n : Int), r)
    | .error e => .error e

/-- Insert a key into a decoded object, overwriting an existing binding in
place, as assignment into a Python dict does. -/
def objInsert : List (String × Json) → String → Json → List (String × Json)
| [], k, v => [(k, v)]
| kv :: rest, k, v =>
  if kv.1 = k then (kv.1, v) :: rest else kv :: objInsert rest k v

mutual

/-- One JSON value, following the grammar accepted by the Python json
module on the modelled subset.  The fuel argument bounds the recursion
depth; top-level calls supply more fuel than any input can consume. -/
def parseVal : Nat → List Char → Except String (Json × List Char)
| 0, _ => .error "Exceeded maximum recursion depth"
| Nat.succ fuel, l =>
  match skipWs l with
  | [] => .error "Expecting value"
  | c :: rest =>
    if c = '"' then
      match parseStringBody [] rest with
      | .ok (s, r) => .ok (Json.str s, r)
      | .error e => .error e
    else if c = lbraceC then parseObjItems fuel rest true []
    else if c = '[' then parseArrItems fuel rest true []
    else if c = 'n' then
      match rest with
      | 'u' :: 'l' :: 'l' :: r => .ok (Json.null, r)
      | _ => .error "Expecting value"
    else if c = 't' then
      match rest with
      | 'r' :: 'u' :: 'e' :: r => .ok (Json.bool true, r)
      | _ => .error "Expecting value"
    else if c = 'f' then
      match rest with
      | 'a' :: 'l' :: 's' :: 'e' :: r => .ok (Json.bool false, r)
      | _ => .error "Expecting value"
    else if c = '-' || c.isDigit then parseIntBody (c :: rest)
    else .error "Expecting value"

/-- Members of a JSON object after the opening brace.  Matches the Python
json module: an empty object is allowed, property names must be quoted
strings, members are separated by commas with no trailing comma. -/
def parseObjItems : Nat → List Char → Bool → List (String × Json) → Except String (Json × List Char)
| 0, _, _, _ => .error "Exceeded maximum recursion depth"
| Nat.succ fuel, l, first, acc =>
  match skipWs l with
  | [] => .error "Expecting property name enclosed in double quotes"
  | c :: rest =>
    if first && c = rbraceC then .ok (Json.obj acc, rest)
    else if c = '"' then
      match parseStringBody [] rest with
      | .error e => .error e
      | .ok (key, r1) =>
        match skipWs r1 with
        | ':' :: r2 =>
          match parseVal fuel r2 with
          | .error e => .error e
          | .ok (v, r3) =>
            match skipWs r3 with
            | c2 :: r4 =>
              if c2 = ',' then parseObjItems fuel r4 false (objInsert acc key v)
              else if c2 = rbraceC then .ok (Json.obj (objInsert acc key v), r4)
              else .error "Expecting delimiter"
            | [] => .error "Expecting delimiter"
        | _ => .error "Expecting colon delimiter"
    else .error "Expecting property name enclosed in double quotes"

/-- Elements of a JSON array after the opening bracket.  Matches the
Python json module: empty array allowed, comma separators, no trailing
comma. -/
def parseArrItems : Nat → List Char → Bool → List Json → Except String (Json × List Char)
| 0, _, _, _ => .error "Exceeded maximum recursion depth"
| Nat.succ fuel, l, first, acc =>
  match skipWs l with
  | [] => .error "Expecting value"
  | c :: rest =>
    if first && c = ']' then .ok (Json.arr acc, rest)
    else
      match parseVal fuel (c :: rest) with
      | .error e => .error e
      | .ok (v, r1) =>
        match skipWs r1 with
        | c2 :: r2 =>
          if c2 = ',' then parseArrItems fuel r2 false (acc ++ [v])
          else if c2 = ']' then .ok (Json.arr (acc ++ [v]), r2)
          else .error "Expecting delimiter"
        | [] => .error "Expecting delimiter"
end

/-- Model of Python json.loads on the modelled subset: parse one value and
require only whitespace after it. -/
def json_loads (s : String) : Except String Json :=
  match parseVal (s.data.length + 1) s.data with
  | .error e => .error e
  | .ok (v, rest) => if (skipWs rest).isEmpty then .ok v else .error "Extra data"

/-- Characters strictly before the first brace of the input, paired with
true when that first brace is a close brace; none when the input has no
brace at all. -/
def scanToBrace : List Char → Option (List Char × Bool)
| [] => none
| c :: rest =>
  if c = lbraceC then some ([], false)
  else if c = rbraceC then some ([], true)
  else
    match scanToBrace rest with
    | some p => some (c :: p.1, p.2)
    | none => none

/-- Model of the regex search used by the malformed-response recovery of
`get_llm_decision`: the leftmost substring consisting of an open brace, a
run of non-brace characters, and a close brace.  A match starting at an
open brace succeeds exactly when the next brace after it is a close
brace; otherwise the search continues at the next open brace. -/
def findBraceMatch : List Char → Option (List Char)
| [] => none
| c :: rest =>
  if c = lbraceC then
    match scanToBrace rest with
    | some (mid, true) => some (lbraceC :: mid ++ [rbraceC])
    | _ => findBraceMatch rest
  else findBraceMatch rest

/-- Regex search over a string, returning the matched substring. -/
def re_search_brace (s : String) : Option String :=
  (findBraceMatch s.data).map String.mk

/-- The synthesized fallback decision of the Bedrock branch of
`get_llm_decision`: the reason string is the one the source writes. -/
def wait_fallback : Json :=
  Json.obj [("action", Json.str "wait"), ("reason", Json.str "Failed to parse response, waiting")]

/-- The provider backends selected by LLM_PROVIDER in src/kernel.py; any
value other than "groq" or "bedrock" falls into the openai default. -/
inductive Provider where
| groq : Provider
| openai : Provider
| bedrock : Provider

/-- Response-text normalization of the Bedrock branch of
`get_llm_decision`: try a direct parse; on failure search for a
brace-delimited substring and parse that (a failure of this second parse
is not caught in the source and propagates); with no match at all,
synthesize the fallback Wait decision. -/
def bedrock_extract (result_text : String) : Except String Json :=
  match json_loads result_text with
  | .ok j => .ok j
  | .error _ =>
    match re_search_brace result_text with
    | some m => json_loads m
    | none => .ok wait_fallback

/-- Response-text normalization of `get_llm_decision` per provider: the
OpenAI-compatible branch (providers groq and openai) parses the message
content directly with no recovery; only the Bedrock branch has the
tolerant fallback. -/
def parse_decision : Provider → String → Except String Json
| Provider.bedrock, t => bedrock_extract t
| Provider.groq, t => json_loads t
| Provider.openai, t => json_loads t

/-- Comma-space join, as Python renders list elements. -/
def joinComma : List String → String
| [] => ""
| [s] => s
| s :: s2 :: rest => s ++ ", " ++ joinComma (s2 :: rest)

mutual

/-- Python repr of a decoded JSON value, as the f-strings of
`get_llm_decision` render list values.  String repr is modelled without
quote escaping, which the rendered histories of this program never
need. -/
def pyRepr : Json → String
| Json.null => "None"
| Json.bool true => "True"
| Json.bool false => "False"
| Json.num n => toString n
| Json.str s => String.mk (Char.ofNat 39 :: s.data ++ [Char.ofNat 39])
| Json.arr xs => "[" ++ joinComma (pyReprList xs) ++ "]"
| Json.obj kvs => String.mk [lbraceC] ++ joinComma (pyReprKVs kvs) ++ String.mk [rbraceC]

/-- Reprs of the elements of a list value. -/
def pyReprList : List Json → List String
| [] => []
| x :: xs => pyRepr x :: pyReprList xs

/-- Reprs of the members of a dict value. -/
def pyReprKVs : List (String × Json) → List String
| [] => []
| kv :: rest =>
  (String.mk (Char.ofNat 39 :: kv.1.data ++ [Char.ofNat 39]) ++ ": " ++ pyRepr kv.2) :: pyReprKVs rest

end

/-- Python str() of a decoded JSON value, as an f-string renders it:
strings print their contents, every other value prints its repr. -/
def pyStr (j : Json) : String :=
  match j with
  | Json.str s => s
  | other => pyRepr other

/-- One line of the rendered action history in `get_llm_decision`: a
"type" entry is summarized by its literal typed text, a "tap" entry by
its coordinate list, every other entry by its action tag; the reason
defaults to "N/A".  The i-th entry is labelled as step i+1.  Direct
indexing of a missing "action" key raises KeyError in Python. -/
def history_line (i : Nat) (a : Json) : Except String String :=
  match a with
  | Json.obj kvs =>
    match lookupKV kvs "action" with
    | none => .error "KeyError: action"
    | some av =>
      let reason := pyStr ((lookupKV kvs "reason").getD (Json.str "N/A"))
      match av with
      | Json.str s =>
        if s = "type" then
          .ok ("Step " ++ toString (i + 1) ++ ": typed \"" ++ pyStr ((lookupKV kvs "text").getD (Json.str "")) ++ "\" - " ++ reason)
        else if s = "tap" then
          .ok ("Step " ++ toString (i + 1) ++ ": tapped " ++ pyStr ((lookupKV kvs "coordinates").getD (Json.arr [])) ++ " - " ++ reason)
        else
          .ok ("Step " ++ toString (i + 1) ++ ": " ++ s ++ " - " ++ reason)
      | other => .ok ("Step " ++ toString (i + 1) ++ ": " ++ pyStr other ++ " - " ++ reason)
  | _ => .error "TypeError: history entry is not a dict"

/-- Newline join, as the rendered history lines are assembled. -/
def joinNl : List String → String
| [] => ""
| [s] => s
| s :: s2 :: rest => s ++ "\n" ++ joinNl (s2 :: rest)

/-- All rendered history lines, numbering entries from zero. -/
def history_lines : Nat → List Json → Except String (List String)
| _, [] => .ok []
| i, a :: rest =>
  match history_line i a with
  | .error e => .error e
  | .ok line =>
    match history_lines (i + 1) rest with
    | .error e => .error e
    | .ok ls => .ok (line :: ls)

/-- The PREVIOUS_ACTIONS block of the prompt built by `get_llm_decision`:
empty for an empty history, otherwise a header followed by the rendered
lines in step order. -/
def format_history (h : List Json) : Except String String :=
  match h with
  | [] => .ok ""
  | _ =>
    match history_lines 0 h with
    | .error e => .error e
    | .ok ls => .ok ("\n\nPREVIOUS_ACTIONS:\n" ++ joinNl ls)

/-- Full decision operation of `get_llm_decision` with the provider
network call abstracted as `respond` (the external request dispatch and
response-envelope unwrapping, which yields the raw response text): build
the user content with the rendered history, obtain the response text and
normalize it per provider. -/
def get_llm_decision (provider : Provider) (respond : String → String) (goal screen_context : String) (action_history : List Json) : Except String Json :=
  match format_history action_history with
  | .error e => .error e
  | .ok history_str =>
    let user_content := "GOAL: " ++ goal ++ "\n\nSCREEN_CONTEXT:\n" ++ screen_context ++ history_str
    parse_decision provider (respond user_content)

/-- A device effect issued by `execute_action`: a bridge (adb) command
with its argument list, or the fixed wait delay of the "wait" branch. -/
inductive Effect where
| adb (args : List String) : Effect
| sleep (seconds : Nat) : Effect
deriving DecidableEq

/-- Outcome of `execute_action`: the issued effects in order, a process
exit (the "done" branch calls exit(0)), or a propagating Python
exception with its message. -/
inductive ExecResult where
| ok (effects : List Effect) : ExecResult
| exited : ExecResult
| err (msg : String) : ExecResult
deriving DecidableEq

/-- Python tuple unpacking of two targets from the value of
action.get("coordinates"): a 2-element list, a 2-character string or a
2-key dict unpack; None (missing key or JSON null) and non-iterable
values raise TypeError, other lengths raise ValueError. -/
def unpack2 : Option Json → Except String (Json × Json)
| none => .error "TypeError: cannot unpack non-iterable NoneType object"
| some Json.null => .error "TypeError: cannot unpack non-iterable NoneType object"
| some (Json.bool _) => .error "TypeError: cannot unpack non-iterable bool object"
| some (Json.num _) => .error "TypeError: cannot unpack non-iterable int object"
| some (Json.arr [a, b]) => .ok (a, b)
| some (Json.arr l) =>
  if l.length < 2 then .error "ValueError: not enough values to unpack"
  else .error "ValueError: too many values to unpack"
| some (Json.str s) =>
  match s.data with
  | [c1, c2] => .ok (Json.str (String.mk [c1]), Json.str (String.mk [c2]))
  | l =>
    if l.length < 2 then .error "ValueError: not enough values to unpack"
    else .error "ValueError: too many values to unpack"
| some (Json.obj kvs) =>
  match kvs with
  | [kv1, kv2] => .ok (Json.str kv1.1, Json.str kv2.1)
  | l =>
    if l.length < 2 then .error "ValueError: not enough values to unpack"
    else .error "ValueError: too many values to unpack"

/-- Python text.replace of a single space by a percent-s pair, the adb
text-input escaping applied by the "type" branch of `execute_action`:
every space character becomes the two-character placeholder, every other
character is kept. -/
def spaceEncodeChars : List Char → List Char
| [] => []
| c :: rest =>
  if c = ' ' then '%' :: 's' :: spaceEncodeChars rest
  else c :: spaceEncodeChars rest

/-- The transmitted text of a "type" action. -/
def py_space_encode (s : String) : String := String.mk (spaceEncodeChars s.data)

/-- The value of action.get("text") as the "type" branch uses it: only a
decoded string has the replace method; None and every other decoded
value raise AttributeError. -/
def textFieldValue : Option Json → Except String String
| some (Json.str t) => .ok (py_space_encode t)
| none => .error "AttributeError: NoneType object has no attribute replace"
| some Json.null => .error "AttributeError: NoneType object has no attribute replace"
| some (Json.bool _) => .error "AttributeError: bool object has no attribute replace"
| some (Json.num _) => .error "AttributeError: int object has no attribute replace"
| some (Json.arr _) => .error "AttributeError: list object has no attribute replace"
| some (Json.obj _) => .error "AttributeError: dict object has no attribute replace"

/-- The swipe gesture command for a direction value, from the "swipe"
branch of `execute_action`: fixed screen-center anchors, constant
duration; an unrecognized or non-string direction issues nothing. -/
def swipeEffects (direction : Json) : List Effect :=
  match direction with
  | Json.str d =>
    if d = "up" then [Effect.adb ["shell", "input", "swipe", "540", "1500", "540", "500", "300"]]
    else if d = "down" then [Effect.adb ["shell", "input", "swipe", "540", "500", "540", "1500", "300"]]
    else if d = "left" then [Effect.adb ["shell", "input", "swipe", "800", "1200", "200", "1200", "300"]]
    else if d = "right" then [Effect.adb ["shell", "input", "swipe", "200", "1200", "800", "1200", "300"]]
    else []
  | _ => []

/-- Model of `execute_action` in src/kernel.py: dispatch on the "action"
tag of the decoded decision.  An unknown or missing tag, or a non-string
tag value, falls through every branch and does nothing; the "done"
branch exits the process; a "tap" without a two-value coordinates field
or a "type" without a string text field raises.  A decision that is not
a dict raises AttributeError at the first .get call. -/
def execute_action (action : Json) : ExecResult :=
  match action with
  | Json.obj kvs =>
    match lookupKV kvs "action" with
    | some (Json.str s) =>
      if s = "tap" then
        match unpack2 (lookupKV kvs "coordinates") with
        | .error e => ExecResult.err e
        | .ok (x, y) => ExecResult.ok [Effect.adb ["shell", "input", "tap", pyStr x, pyStr y]]
      else if s = "type" then
        match textFieldValue (lookupKV kvs "text") with
        | .error e => ExecResult.err e
        | .ok t => ExecResult.ok [Effect.adb ["shell", "input", "text", t]]
      else if s = "home" then
        ExecResult.ok [Effect.adb ["shell", "input", "keyevent", "KEYWORDS_HOME"]]
      else if s = "back" then
        ExecResult.ok [Effect.adb ["shell", "input", "keyevent", "KEYWORDS_BACK"]]
      else if s = "enter" then
        ExecResult.ok [Effect.adb ["shell", "input", "keyevent", "66"]]
      else if s = "swipe" then
        ExecResult.ok (swipeEffects ((lookupKV kvs "direction").getD (Json.str "up")))
      else if s = "wait" then
        ExecResult.ok [Effect.sleep 2]
      else if s = "done" then
        ExecResult.exited
      else ExecResult.ok []
    | _ => ExecResult.ok []
  | _ => ExecResult.err "AttributeError: object has no attribute get"

/-- Escapes applied when serializing a string back to JSON text. -/
def jsonEscapeChar (c : Char) : List Char :=
  if c = '"' then ['\\', '"']
  else if c = '\\' then ['\\', '\\']
  else if c = '\n' then ['\\', 'n']
  else if c = '\t' then ['\\', 't']
  else if c = '\r' then ['\\', 'r']
  else [c]

/-- A quoted JSON string literal. -/
def jsonQuote (s : String) : String :=
  String.mk ('"' :: (s.data.map jsonEscapeChar).flatten ++ ['"'])

/-- A run of spaces, for the two-space indentation of json.dumps. -/
def spacesN (n : Nat) : String := String.mk (List.replicate n ' ')

/-- Comma-newline join of pretty-printed members. -/
def joinCommaNl : List String → String
| [] => ""
| [s] => s
| s :: s2 :: rest => s ++ ",\n" ++ joinCommaNl (s2 :: rest)

/-- Pretty printer behind `json_dumps_indent2`; the fuel bounds the value
depth and top-level calls supply enough for any value.  No claim
inspects this output; it models the shape of json.dumps with indent=2 as
`get_screen_state` serializes the element list. -/
def dumpFuel : Nat → Nat → Json → String
| 0, _, _ => ""
| Nat.succ fuel, ind, j =>
  match j with
  | Json.null => "null"
  | Json.bool true => "true"
  | Json.bool false => "false"
  | Json.num n => toString n
  | Json.str s => jsonQuote s
  | Json.arr [] => "[]"
  | Json.arr xs =>
    "[\n" ++ joinCommaNl (xs.map (fun x => spacesN (ind + 2) ++ dumpFuel fuel (ind + 2) x)) ++ "\n" ++ spacesN ind ++ "]"
  | Json.obj [] => "\x7b\x7d"
  | Json.obj kvs =>
    "\x7b\n" ++ joinCommaNl (kvs.map (fun kv => spacesN (ind + 2) ++ jsonQuote kv.1 ++ ": " ++ dumpFuel fuel (ind + 2) kv.2)) ++ "\n" ++ spacesN ind ++ "\x7d"

mutual

/-- Structural size of a decoded value, used to supply printer fuel. -/
def jsonSize : Json → Nat
| Json.arr xs => jsonSizeList xs + 1
| Json.obj kvs => jsonSizeKVs kvs + 1
| _ => 1

/-- Sizes of array elements. -/
def jsonSizeList : List Json → Nat
| [] => 0
| x :: xs => jsonSize x + jsonSizeList xs

/-- Sizes of object members. -/
def jsonSizeKVs : List (String × Json) → Nat
| [] => 0
| kv :: rest => jsonSize kv.2 + jsonSizeKVs rest

end

/-- Model of json.dumps(elements, indent=2) as `get_screen_state` uses it. -/
def json_dumps_indent2 (j : Json) : String := dumpFuel (jsonSize j + 1) 0 j

/-- The external world of one run, indexed by step number: whether the
pulled dump file exists locally, its text, and the element extraction of
the external sanitizer module (a collaborator outside the two source
files).  The stop field is the external user stop signal; the source of
`run_agent` never reads any such signal, which the loop theorems make
explicit. -/
structure Env where
  fileExists : Nat → Bool
  xmlContent : Nat → String
  sanitize : String → Json
  stop : Nat → Bool

/-- Model of `get_screen_state` in src/kernel.py at a given step: the
bridge dump and pull commands are external effects; when no readable
local dump document exists the sentinel error string is returned,
otherwise the sanitized element list is serialized. -/
def get_screen_state (env : Env) (step : Nat) : String :=
  if env.fileExists step then json_dumps_indent2 (env.sanitize (env.xmlContent step))
  else "Error: Could not capture screen."

/-- A decision engine as the loop consumes it: goal, screen context and
prior history in, one decoded decision out, or a propagating
exception. -/
def DecideFun : Type := String → String → List Json → Except String Json

/-- Record of one loop iteration that reached the action stage: the
screen context passed to the decision engine, the decision, and the
execution outcome. -/
structure StepTrace where
  screen_context : String
  decision : Json
  exec : ExecResult

/-- Terminal status of a run of `run_agent`.  The loop of the source can
only end by exhausting its step budget, by the process exit of a "done"
action, or by a propagating exception; the stopped status exists to
state claims about an external stop signal and is proved unreachable. -/
inductive AgentStatus where
| budgetExhausted : AgentStatus
| done : AgentStatus
| error (msg : String) : AgentStatus
| stopped : AgentStatus
deriving DecidableEq

/-- The loop of `run_agent`: at each remaining step, capture the screen,
ask the decision engine, print (not modelled), execute, append to the
history and settle.  A decision that is not a dict raises at the reason
print before execution.  Returns the terminal status, the trace of
iterations that reached execution, and the final history. -/
def run_agent_loop (env : Env) (decide : DecideFun) (goal : String) : List Json → Nat → Nat → AgentStatus × List StepTrace × List Json
| history, _, 0 => (AgentStatus.budgetExhausted, [], history)
| history, step, Nat.succ remaining =>
  let screen_context := get_screen_state env step
  match decide goal screen_context history with
  | .error e => (AgentStatus.error e, [], history)
  | .ok decision =>
    match decision with
    | Json.obj kvs =>
      match execute_action (Json.obj kvs) with
      | ExecResult.exited =>
        (AgentStatus.done, [⟨screen_context, Json.obj kvs, ExecResult.exited⟩], history)
      | ExecResult.err m =>
        (AgentStatus.error m, [⟨screen_context, Json.obj kvs, ExecResult.err m⟩], history)
      | ExecResult.ok effects =>
        let r := run_agent_loop env decide goal (history ++ [Json.obj kvs]) (step + 1) remaining
        (r.1, ⟨screen_context, Json.obj kvs, ExecResult.ok effects⟩ :: r.2.1, r.2.2)
    | _ => (AgentStatus.error "AttributeError: object has no attribute get", [], history)

/-- Model of `run_agent` in src/kernel.py: run the loop for at most
max_steps steps starting from an empty history. -/
def run_agent (env : Env) (decide : DecideFun) (goal : String) (max_steps : Nat) : AgentStatus × List StepTrace × List Json :=
  run_agent_loop env decide goal [] 0 max_steps

/-- The names bound at module level by src/kernel.py, in source order:
imports, the lazy client handle, configuration constants and the
function definitions.  No name Config is bound. -/
def kernel_module_names : List String :=
  ["os", "time", "subprocess", "json", "Dict", "Any", "List", "OpenAI", "load_dotenv",
   "sanitizer", "bedrock_client", "get_bedrock_client", "ADB_PATH", "SCREEN_DUMP_PATH",
   "LOCAL_DUMP_PATH", "LLM_PROVIDER", "client", "MODEL", "run_adb_command",
   "get_screen_state", "execute_action", "get_llm_decision", "run_agent"]

/-- A Python from-import of a list of names: names bind left to right and
the first name absent from the imported module raises ImportError,
aborting the importing module before any of its further statements. -/
def fromImportCheck (avail : List String) : List String → Except String Unit
| [] => .ok ()
| n :: rest => if avail.contains n then fromImportCheck avail rest else .error n

/-- Outcome of running src/federal_upi.py as a script. -/
inductive EntryOutcome where
| importError (name : String) : EntryOutcome
| mainRan : EntryOutcome
deriving DecidableEq

/-- Model of the module level of src/federal_upi.py: the statement
from kernel import run_agent, Config runs at import time, before main is
called; it reaches main only if every imported name is bound by
kernel. -/
def federal_upi_entry : EntryOutcome :=
  match fromImportCheck kernel_module_names ["run_agent", "Config"] with
  | .error n => EntryOutcome.importError n
  | .ok _ => EntryOutcome.mainRan

/-- A decision engine that always returns the same tap decision, as in
the loop-termination test of the specification. -/
def tapDecision : Json :=
  Json.obj [("action", Json.str "tap"), ("coordinates", Json.arr [Json.num 100, Json.num 200]), ("reason", Json.str "tap the button")]

/-- A wait decision. -/
def waitDecision : Json :=
  Json.obj [("action", Json.str "wait"), ("reason", Json.str "wait for loading")]

/-- A done decision. -/
def doneDecision : Json :=
  Json.obj [("action", Json.str "done"), ("reason", Json.str "task complete")]

/-- Decision engine returning tap on every step. -/
def alwaysTap : DecideFun := fun _ _ _ => Except.ok tapDecision

/-- Decision engine returning wait on its first two calls and done on the
third, keyed by the length of the history it is shown. -/
def waitWaitDone : DecideFun := fun _ _ h =>
  Except.ok (if h.length < 2 then waitDecision else doneDecision)

/-- A concrete environment whose screen capture fails at every step and
whose external stop signal is raised from the start. -/
def envStopRequested : Env :=
  ⟨fun _ => false, fun _ => "", fun _ => Json.null, fun _ => true⟩

/-- Whether a run of characters contains no brace at all, the side
condition under which the regex fallback recovers an embedded object. -/
def braceFree (l : List Char) : Bool := l.all (fun c => c != lbraceC && c != rbraceC)

/-- Strings with equal character data are equal. -/
theorem strOfData {s t : String} (h : s.data = t.data) : s = t :=
  congrArg String.mk h

/-- Unfolding append on string data. -/
theorem dataAppend (s t : String) : (s ++ t).data = s.data ++ t.data := rfl

/-- The done branch of the executor always exits the process, whatever
else the decision carries. -/
theorem exec_done_exits (kvs : List (String × Json)) (h : lookupKV kvs "action" = some (Json.str "done")) : execute_action (Json.obj kvs) = ExecResult.exited := by
  simp [execute_action, h]

/-- The loop never reaches the stopped status: its source has no stop
check, so the only terminal statuses are budget exhaustion, the process
exit of a done action, and a propagating exception. -/
theorem loop_never_stopped (env : Env) (d : DecideFun) (g : String) :
    ∀ rem hist step, (run_agent_loop env d g hist step rem).1 ≠ AgentStatus.stopped := by
  intro rem
  induction rem with
  | zero => intro hist step; simp [run_agent_loop]
  | succ n ih =>
    intro hist step
    simp only [run_agent_loop]
    cases hdec : d g (get_screen_state env step) hist with
    | error e => simp [hdec]
    | ok decision =>
      cases decision with
      | obj kvs =>
        cases hexec : execute_action (Json.obj kvs) with
        | exited => simp [hdec, hexec]
        | err m => simp [hdec, hexec]
        | ok effects => simpa [hdec, hexec] using ih (hist ++ [Json.obj kvs]) (step + 1)
      | null => simp [hdec]
      | bool b => simp [hdec]
      | num x => simp [hdec]
      | str s => simp [hdec]
      | arr xs => simp [hdec]

/-- History invariant of the loop: starting from a history with no done
entry, the final history has no done entry, because a done decision
exits inside the executor before the append. -/
theorem loop_no_done (env : Env) (d : DecideFun) (g : String) :
    ∀ rem hist step, (∀ j ∈ hist, j.get "action" ≠ some (Json.str "done")) →
      ∀ j ∈ (run_agent_loop env d g hist step rem).2.2, j.get "action" ≠ some (Json.str "done") := by
  intro rem
  induction rem with
  | zero => intro hist step hinv; exact hinv
  | succ n ih =>
    intro hist step hinv
    simp only [run_agent_loop]
    cases hdec : d g (get_screen_state env step) hist with
    | error e => simp only [hdec]; exact hinv
    | ok decision =>
      cases decision with
      | obj kvs =>
        cases hexec : execute_action (Json.obj kvs) with
        | exited => simp only [hdec, hexec]; exact hinv
        | err m => simp only [hdec, hexec]; exact hinv
        | ok effects =>
          simp only [hdec, hexec]
          intro j hj
          apply ih (hist ++ [Json.obj kvs]) (step + 1) _ j hj
          intro j2 hj2
          rcases List.mem_append.mp hj2 with hj2a | hj2b
          · exact hinv j2 hj2a
          · have hjd : j2 = Json.obj kvs := by simpa using hj2b
            subst hjd
            intro hcontra
            have hx : execute_action (Json.obj kvs) = ExecResult.exited :=
              exec_done_exits kvs hcontra
            rw [hx] at hexec
            cases hexec
      | null => simp only [hdec]; exact hinv
      | bool b => simp only [hdec]; exact hinv
      | num x => simp only [hdec]; exact hinv
      | str s => simp only [hdec]; exact hinv
      | arr xs => simp only [hdec]; exact hinv

/-- When the capture fails at every step, every screen context the loop
records (and hence passes to the decision engine) is the sentinel. -/
theorem loop_ctx_sentinel (env : Env) (d : DecideFun) (g : String)
    (hfe : ∀ i, env.fileExists i = false) :
    ∀ rem hist step, ∀ tr ∈ (run_agent_loop env d g hist step rem).2.1,
      tr.screen_context = "Error: Could not capture screen." := by
  intro rem
  induction rem with
  | zero => intro hist step tr htr; simp [run_agent_loop] at htr
  | succ n ih =>
    intro hist step tr
    have hgs : get_screen_state env step = "Error: Could not capture screen." := by
      simp [get_screen_state, hfe]
    simp only [run_agent_loop]
    cases hdec : d g (get_screen_state env step) hist with
    | error e => simp [hdec]
    | ok decision =>
      cases decision with
      | obj kvs =>
        cases hexec : execute_action (Json.obj kvs) with
        | exited => simp [hdec, hexec]; intro h; rw [h]; exact hgs
        | err m => simp [hdec, hexec]; intro h; rw [h]; exact hgs
        | ok effects =>
          simp only [hdec, hexec]
          intro htr
          rcases List.mem_cons.mp htr with h1 | h2
          · rw [h1]; exact hgs
          · exact ih (hist ++ [Json.obj kvs]) (step + 1) tr h2
      | null => simp [hdec]
      | bool b => simp [hdec]
      | num x => simp [hdec]
      | str s => simp [hdec]
      | arr xs => simp [hdec]

/-- The loop result does not depend on the external stop signal: the
source of `run_agent` reads no stop signal at the top of its iterations
or anywhere else. -/
theorem loop_stop_irrelevant (fe : Nat → Bool) (xc : Nat → String) (sz : String → Json)
    (s s2 : Nat → Bool) (d : DecideFun) (g : String) :
    ∀ rem hist step,
      run_agent_loop ⟨fe, xc, sz, s⟩ d g hist step rem = run_agent_loop ⟨fe, xc, sz, s2⟩ d g hist step rem := by
  intro rem
  induction rem with
  | zero => intro hist step; rfl
  | succ n ih =>
    intro hist step
    have hgs : get_screen_state ⟨fe, xc, sz, s2⟩ step = get_screen_state ⟨fe, xc, sz, s⟩ step := rfl
    simp only [run_agent_loop, hgs]
    cases hdec : d g (get_screen_state ⟨fe, xc, sz, s⟩ step) hist with
    | error e => simp [hdec]
    | ok decision =>
      cases decision with
      | obj kvs =>
        cases hexec : execute_action (Json.obj kvs) with
        | exited => simp [hdec, hexec]
        | err m => simp [hdec, hexec]
        | ok effects => simp only [hdec, hexec]; rw [ih (hist ++ [Json.obj kvs]) (step + 1)]
      | null => simp [hdec]
      | bool b => simp [hdec]
      | num x => simp [hdec]
      | str s => simp [hdec]
      | arr xs => simp [hdec]

/-- Evaluation of the executor on the tap decision used by the
loop-termination scenarios. -/
theorem exec_tap_eq : execute_action (Json.obj [("action", Json.str "tap"), ("coordinates", Json.arr [Json.num 100, Json.num 200]), ("reason", Json.str "tap the button")]) = ExecResult.ok [Effect.adb ["shell", "input", "tap", "100", "200"]] := rfl

/-- Evaluation of the executor on the wait decision. -/
theorem exec_wait_eq : execute_action (Json.obj [("action", Json.str "wait"), ("reason", Json.str "wait for loading")]) = ExecResult.ok [Effect.sleep 2] := rfl

/-- Evaluation of the executor on the done decision. -/
theorem exec_done_eq : execute_action (Json.obj [("action", Json.str "done"), ("reason", Json.str "task complete")]) = ExecResult.exited := rfl

/-- Under the always-tap decision engine the loop runs down its whole
budget and records one execution per remaining step. -/
theorem loop_alwaysTap (env : Env) (g : String) :
    ∀ rem hist step,
      (run_agent_loop env alwaysTap g hist step rem).1 = AgentStatus.budgetExhausted ∧
      (run_agent_loop env alwaysTap g hist step rem).2.1.length = rem := by
  intro rem
  induction rem with
  | zero => intro hist step; exact ⟨rfl, rfl⟩
  | succ n ih =>
    intro hist step
    simp only [run_agent_loop, alwaysTap, tapDecision, exec_tap_eq]
    constructor
    · exact (ih _ _).1
    · simp [(ih _ _).2]

/-- Scanning an input whose first brace is the close brace after a
brace-free run finds exactly that run. -/
theorem scanToBrace_close (inner post : List Char) (h : braceFree inner = true) :
    scanToBrace (inner ++ rbraceC :: post) = some (inner, true) := by
  induction inner with
  | nil => simp [scanToBrace, lbraceC, rbraceC]
  | cons c rest ih =>
    simp only [braceFree, List.all_cons, Bool.and_eq_true, bne_iff_ne] at h
    obtain ⟨⟨hc1, hc2⟩, hrest⟩ := h
    simp [scanToBrace, hc1, hc2, ih (by simpa [braceFree] using hrest)]

/-- A brace-free run before the input does not change the regex search. -/
theorem findBraceMatch_skip (pre l : List Char) (h : braceFree pre = true) :
    findBraceMatch (pre ++ l) = findBraceMatch l := by
  induction pre with
  | nil => rfl
  | cons c rest ih =>
    simp only [braceFree, List.all_cons, Bool.and_eq_true, bne_iff_ne] at h
    obtain ⟨⟨hc1, hc2⟩, hrest⟩ := h
    simp [findBraceMatch, hc1, ih (by simpa [braceFree] using hrest)]

/-- The regex search at an open brace followed by a brace-free run and a
close brace matches exactly that bracketed substring. -/
theorem findBraceMatch_hit (inner post : List Char) (h : braceFree inner = true) :
    findBraceMatch (lbraceC :: (inner ++ rbraceC :: post)) = some (lbraceC :: (inner ++ [rbraceC])) := by
  simp [findBraceMatch, scanToBrace_close inner post h]

/-- The regex search finds nothing in an input with no open brace. -/
theorem findBraceMatch_none (l : List Char) (h : l.all (fun c => c != lbraceC) = true) :
    findBraceMatch l = none := by
  induction l with
  | nil => rfl
  | cons c rest ih =>
    simp only [List.all_cons, Bool.and_eq_true, bne_iff_ne] at h
    simp [findBraceMatch, h.1, ih (by simpa using h.2)]

/-- Claim C1, counterexample: the claim promises that every supported
provider backend recovers from a parse failure with a synthesized Wait
action.  On the code this is false: the OpenAI-compatible branch
(provider groq here) has no recovery and the parse failure propagates as
an exception; and even on the Bedrock branch, when the brace-delimited
substring itself fails to parse, that second failure propagates. -/
theorem claim_C1_counterexample :
    parse_decision Provider.groq "I will wait for the page to load." = Except.error "Expecting value"
    ∧ parse_decision Provider.bedrock "Result: \x7bnot json\x7d"
        = Except.error "Expecting property name enclosed in double quotes" :=
  ⟨rfl, rfl⟩

/-- Claim C1, amended: the parse-failure recovery exists only in the
Bedrock branch of the decision operation.  There, a successful direct
parse is returned; on failure the first brace-delimited substring is
parsed instead, with the result of that parse returned as is (so a
failing substring parse propagates); only when no such substring exists
is a Wait action synthesized, with reason "Failed to parse response,
waiting".  The OpenAI-compatible backends (groq and openai) parse the
response text directly and propagate any failure. -/
theorem claim_C1_amended :
    (∀ t, parse_decision Provider.groq t = json_loads t)
    ∧ (∀ t, parse_decision Provider.openai t = json_loads t)
    ∧ (∀ t j, json_loads t = Except.ok j → parse_decision Provider.bedrock t = Except.ok j)
    ∧ (∀ t e m, json_loads t = Except.error e → re_search_brace t = some m →
        parse_decision Provider.bedrock t = json_loads m)
    ∧ (∀ t e, json_loads t = Except.error e → re_search_brace t = none →
        parse_decision Provider.bedrock t = Except.ok wait_fallback) := by
  refine ⟨fun t => rfl, fun t => rfl, ?_, ?_, ?_⟩
  · intro t j h; simp [parse_decision, bedrock_extract, h]
  · intro t e m h1 h2; simp [parse_decision, bedrock_extract, h1, h2]
  · intro t e h1 h2; simp [parse_decision, bedrock_extract, h1, h2]

/-- Claim C1, witness: the amended recovery conjunct evaluated on a
response with no brace at all. -/
theorem claim_C1_witness : parse_decision Provider.bedrock "hello" = Except.ok wait_fallback :=
  claim_C1_amended.2.2.2.2 "hello" "Expecting value" rfl rfl

/-- Claim C2, counterexample: the claim says an action whose required
field is missing is logged and treated as a no-op with no exception.  On
the code a tap decision without a coordinates field raises TypeError at
the tuple unpacking, and the exception propagates to the loop. -/
theorem claim_C2_counterexample :
    execute_action (Json.obj [("action", Json.str "tap"), ("reason", Json.str "press the button")])
      = ExecResult.err "TypeError: cannot unpack non-iterable NoneType object" := rfl

/-- Claim C2, amended: only an unknown or missing action tag is a silent
no-op with no device effect.  A tap decision with no coordinates field
raises TypeError and a type decision with no text field raises
AttributeError; both exceptions propagate out of the executor and abort
the loop. -/
theorem claim_C2_amended :
    (∀ kvs, lookupKV kvs "action" = none → execute_action (Json.obj kvs) = ExecResult.ok [])
    ∧ (∀ kvs s, lookupKV kvs "action" = some (Json.str s) →
        s ∉ (["tap", "type", "home", "back", "enter", "swipe", "wait", "done"] : List String) →
        execute_action (Json.obj kvs) = ExecResult.ok [])
    ∧ (∀ kvs, lookupKV kvs "action" = some (Json.str "tap") → lookupKV kvs "coordinates" = none →
        execute_action (Json.obj kvs) = ExecResult.err "TypeError: cannot unpack non-iterable NoneType object")
    ∧ (∀ kvs, lookupKV kvs "action" = some (Json.str "type") → lookupKV kvs "text" = none →
        execute_action (Json.obj kvs) = ExecResult.err "AttributeError: NoneType object has no attribute replace") := by
  refine ⟨?_, ?_, ?_, ?_⟩
  · intro kvs h; simp [execute_action, h]
  · intro kvs s h hnotin
    simp only [List.mem_cons, List.not_mem_nil, or_false] at hnotin
    push_neg at hnotin
    obtain ⟨h1, h2, h3, h4, h5, h6, h7, h8⟩ := hnotin
    simp [execute_action, h, h1, h2, h3, h4, h5, h6, h7, h8]
  · intro kvs h1 h2; simp [execute_action, h1, h2, unpack2]
  · intro kvs h1 h2; simp [execute_action, h1, h2, textFieldValue]

/-- Claim C2, witness: the amended executor-exception conjunct evaluated
on a type decision with no text field. -/
theorem claim_C2_witness :
    execute_action (Json.obj [("action", Json.str "type"), ("reason", Json.str "r")])
      = ExecResult.err "AttributeError: NoneType object has no attribute replace" :=
  claim_C2_amended.2.2.2 [("action", Json.str "type"), ("reason", Json.str "r")] rfl rfl

/-- Claim C3: with a decision engine that always returns Tap and a
configured maximum of 5 steps, the loop performs exactly 5 action
executions and terminates in the budget-exhausted status; with a
decision engine returning Wait, Wait, Done it performs exactly 3 steps
and terminates in the done status (the process exit of the done branch),
the loop returning at the terminal state so that no further step
executes. -/
theorem claim_C3 (env : Env) (goal : String) :
    ((run_agent env alwaysTap goal 5).1 = AgentStatus.budgetExhausted
      ∧ (run_agent env alwaysTap goal 5).2.1.length = 5)
    ∧ ((run_agent env waitWaitDone goal 10).1 = AgentStatus.done
      ∧ (run_agent env waitWaitDone goal 10).2.1.length = 3) := by
  refine ⟨⟨(loop_alwaysTap env goal 5 [] 0).1, (loop_alwaysTap env goal 5 [] 0).2⟩, ?_, ?_⟩
  · simp [run_agent, run_agent_loop, waitWaitDone, waitDecision, doneDecision, exec_wait_eq, exec_done_eq]
  · simp [run_agent, run_agent_loop, waitWaitDone, waitDecision, doneDecision, exec_wait_eq, exec_done_eq]

/-- Claim C4: running the federal_upi entry point fails at module import
time with an ImportError on the name Config, which src/kernel.py never
binds; main never runs through this entry point and no agent step is
performed. -/
theorem claim_C4 :
    federal_upi_entry = EntryOutcome.importError "Config"
    ∧ federal_upi_entry ≠ EntryOutcome.mainRan
    ∧ kernel_module_names.contains "Config" = false
    ∧ kernel_module_names.contains "run_agent" = true :=
  ⟨rfl, by decide, by decide, by decide⟩

/-- Claim C5, counterexample: the claim says the loop checks an external
user stop signal at the top of every iteration and exits to a stopped
state.  On the code, with the stop signal raised before the first step,
the loop still performs all five executions and ends budget-exhausted,
never in a stopped state. -/
theorem claim_C5_counterexample :
    envStopRequested.stop 0 = true
    ∧ (run_agent envStopRequested alwaysTap "g" 5).1 = AgentStatus.budgetExhausted
    ∧ (run_agent envStopRequested alwaysTap "g" 5).2.1.length = 5
    ∧ (run_agent envStopRequested alwaysTap "g" 5).1 ≠ AgentStatus.stopped :=
  ⟨rfl, rfl, rfl, by decide⟩

/-- Claim C5, amended: the loop of run_agent performs no stop-signal
check at any iteration boundary: its outcome is identical under any two
external stop signals and a stopped terminal state is unreachable.  The
only user-stop handling in the repository is the KeyboardInterrupt
handler wrapped around the whole run in the federal_upi entry point
(itself unreachable past its failing import), which is an asynchronous
exception, not a between-steps check. -/
theorem claim_C5_amended (fe : Nat → Bool) (xc : Nat → String) (sz : String → Json)
    (s s2 : Nat → Bool) (d : DecideFun) (goal : String) (n : Nat) :
    run_agent ⟨fe, xc, sz, s⟩ d goal n = run_agent ⟨fe, xc, sz, s2⟩ d goal n
    ∧ (run_agent ⟨fe, xc, sz, s⟩ d goal n).1 ≠ AgentStatus.stopped :=
  ⟨loop_stop_irrelevant fe xc sz s s2 d goal n [] 0,
   loop_never_stopped ⟨fe, xc, sz, s⟩ d goal n [] 0⟩

/-- Claim C6, counterexample: the claim says an Action object embedded in
any surrounding prose parses to the same Action as the bare object.  On
the code, prose containing an earlier brace-delimited fragment makes the
regex fallback pick that fragment, whose parse failure then propagates,
while the bare object parses fine; and on the OpenAI-compatible branch
any surrounding prose at all already raises. -/
theorem claim_C6_counterexample :
    parse_decision Provider.bedrock "Note \x7bx\x7d \x7b\"action\": \"wait\", \"reason\": \"ok\"\x7d"
      = Except.error "Expecting property name enclosed in double quotes"
    ∧ parse_decision Provider.bedrock "\x7b\"action\": \"wait\", \"reason\": \"ok\"\x7d"
      = Except.ok (Json.obj [("action", Json.str "wait"), ("reason", Json.str "ok")])
    ∧ parse_decision Provider.groq "Sure! \x7b\"action\": \"wait\", \"reason\": \"ok\"\x7d"
      = Except.error "Expecting value" :=
  ⟨rfl, rfl, rfl⟩

/-- Claim C6, amended: a bare well-formed JSON response round-trips to
the identical decoded Action on every backend.  On the Bedrock backend,
an Action object embedded in prose yields the same Action as the bare
object provided the prose before it is brace-free and the object itself
contains no brace characters between its delimiters; and a response
containing no open brace at all yields the synthesized Wait decision
(reason "Failed to parse response, waiting") rather than an exception.
The other backends have no embedded-object or no-JSON recovery. -/
theorem claim_C6_amended :
    (∀ (p : Provider) (s : String) (j : Json), json_loads s = Except.ok j → parse_decision p s = Except.ok j)
    ∧ (∀ (pre inner post : List Char) (j : Json) (e : String),
        braceFree pre = true → braceFree inner = true →
        json_loads (String.mk (lbraceC :: (inner ++ [rbraceC]))) = Except.ok j →
        json_loads (String.mk (pre ++ (lbraceC :: (inner ++ rbraceC :: post)))) = Except.error e →
        parse_decision Provider.bedrock (String.mk (pre ++ (lbraceC :: (inner ++ rbraceC :: post)))) = Except.ok j)
    ∧ (∀ (s : String) (e : String), s.data.all (fun c => c != lbraceC) = true →
        json_loads s = Except.error e → parse_decision Provider.bedrock s = Except.ok wait_fallback) := by
  refine ⟨?_, ?_, ?_⟩
  · intro p s j h
    cases p <;> simp [parse_decision, bedrock_extract, h]
  · intro pre inner post j e hpre hinner hok herr
    have hdata : (String.mk (pre ++ (lbraceC :: (inner ++ rbraceC :: post)))).data
        = pre ++ (lbraceC :: (inner ++ rbraceC :: post)) := rfl
    have hfind : findBraceMatch (pre ++ (lbraceC :: (inner ++ rbraceC :: post)))
        = some (lbraceC :: (inner ++ [rbraceC])) := by
      rw [findBraceMatch_skip pre _ hpre]
      exact findBraceMatch_hit inner post hinner
    simp only [parse_decision, bedrock_extract, herr, re_search_brace, hdata, hfind, Option.map]
    exact hok
  · intro s e hall herr
    have hfind : findBraceMatch s.data = none := findBraceMatch_none s.data hall
    simp [parse_decision, bedrock_extract, herr, re_search_brace, hfind]

/-- Claim C6, witness: the amended embedded-object conjunct evaluated on
a wait Action preceded by brace-free prose. -/
theorem claim_C6_witness :
    parse_decision Provider.bedrock
        (String.mk ("Sure: ".data ++ (lbraceC :: ("\"action\": \"wait\"".data ++ rbraceC :: " ok".data))))
      = Except.ok (Json.obj [("action", Json.str "wait")]) :=
  claim_C6_amended.2.1 "Sure: ".data "\"action\": \"wait\"".data " ok".data
    (Json.obj [("action", Json.str "wait")]) "Expecting value" (by decide) (by decide) rfl rfl

/-- Claim C7: when the tree capture produces no readable local dump, the
screen-state operation returns the sentinel error string instead of an
element list, and every screen context the loop records and passes to
the decision engine is exactly that sentinel, unchanged; producing the
sentinel raises nothing, so the condition is never fatal to the loop. -/
theorem claim_C7 (env : Env) (d : DecideFun) (goal : String) (n : Nat)
    (hfe : ∀ i, env.fileExists i = false) :
    (∀ i, get_screen_state env i = "Error: Could not capture screen.")
    ∧ ∀ tr ∈ (run_agent env d goal n).2.1,
        tr.screen_context = "Error: Could not capture screen." := by
  constructor
  · intro i; simp [get_screen_state, hfe]
  · exact loop_ctx_sentinel env d goal hfe n [] 0

/-- Claim C7, witness: the sentinel conjunct evaluated on a concrete
environment whose capture always fails. -/
theorem claim_C7_witness : get_screen_state envStopRequested 0 = "Error: Could not capture screen." :=
  (claim_C7 envStopRequested alwaysTap "g" 2 (fun _ => rfl)).1 0

/-- Claim C8: for every Type action with text t, the executor transmits t
to the bridge text-input command with every space character replaced by
the literal percent-s placeholder pair and every other character of t
unchanged. -/
theorem claim_C8 (t r : String) :
    execute_action (Json.obj [("action", Json.str "type"), ("text", Json.str t), ("reason", Json.str r)])
      = ExecResult.ok [Effect.adb ["shell", "input", "text", py_space_encode t]]
    ∧ (py_space_encode t).data
        = t.data.flatMap (fun c => if c = ' ' then ['%', 's'] else [c]) := by
  constructor
  · rfl
  · show spaceEncodeChars t.data = _
    induction t.data with
    | nil => rfl
    | cons c l ih =>
      by_cases hc : c = ' '
      · simp [spaceEncodeChars, hc, ih]
      · simp [spaceEncodeChars, hc, ih]

/-- Claim C9, counterexample: the claim renders each history entry as
step, summary, an em dash, then reason.  On the code the separator
between summary and reason is a plain hyphen: the rendered entry for
Type of hello contains no em dash character at all. -/
theorem claim_C9_counterexample :
    history_line 0 (Json.obj [("action", Json.str "type"), ("text", Json.str "hello"), ("reason", Json.str "greet")])
      = Except.ok "Step 1: typed \"hello\" - greet"
    ∧ "Step 1: typed \"hello\" - greet".data.contains (Char.ofNat 8212) = false :=
  ⟨rfl, rfl⟩

/-- Claim C9, amended: each history entry is rendered in step order as
"Step i+1: summary - reason" with a plain hyphen separator (not an em
dash): a Type entry is summarized by its literal typed text, a Tap entry
by its coordinate list, any other entry by its action tag; and after
Type of hello then Tap of (10,20), the rendered history contains the
typed-hello line for step 1 and the coordinate-bearing line for step 2,
in that order. -/
theorem claim_C9_amended :
    (∀ (i : Nat) (t r : String),
      history_line i (Json.obj [("action", Json.str "type"), ("text", Json.str t), ("reason", Json.str r)])
        = Except.ok ("Step " ++ toString (i + 1) ++ ": typed \"" ++ t ++ "\" - " ++ r))
    ∧ (∀ (i : Nat) (x y : Int) (r : String),
      history_line i (Json.obj [("action", Json.str "tap"), ("coordinates", Json.arr [Json.num x, Json.num y]), ("reason", Json.str r)])
        = Except.ok ("Step " ++ toString (i + 1) ++ ": tapped " ++ "[" ++ toString x ++ ", " ++ toString y ++ "]" ++ " - " ++ r))
    ∧ (∀ (i : Nat) (s r : String), s ≠ "type" → s ≠ "tap" →
      history_line i (Json.obj [("action", Json.str s), ("reason", Json.str r)])
        = Except.ok ("Step " ++ toString (i + 1) ++ ": " ++ s ++ " - " ++ r))
    ∧ format_history
        [Json.obj [("action", Json.str "type"), ("text", Json.str "hello"), ("reason", Json.str "r1")],
         Json.obj [("action", Json.str "tap"), ("coordinates", Json.arr [Json.num 10, Json.num 20]), ("reason", Json.str "r2")]]
        = Except.ok "\n\nPREVIOUS_ACTIONS:\nStep 1: typed \"hello\" - r1\nStep 2: tapped [10, 20] - r2" := by
  refine ⟨?_, ?_, ?_, rfl⟩
  · intro i t r; rfl
  · intro i x y r
    have h0 : history_line i (Json.obj [("action", Json.str "tap"), ("coordinates", Json.arr [Json.num x, Json.num y]), ("reason", Json.str r)])
        = Except.ok ("Step " ++ toString (i + 1) ++ ": tapped " ++ pyStr (Json.arr [Json.num x, Json.num y]) ++ " - " ++ r) := rfl
    rw [h0]
    refine congrArg Except.ok (strOfData ?_)
    simp [pyStr, pyRepr, pyReprList, joinComma, dataAppend, List.append_assoc]
  · intro i s r h1 h2
    simp only [history_line, lookupKV]
    simp [h1, h2, pyStr]

/-- Claim C9, witness: the amended other-action conjunct evaluated on a
swipe entry at step index 2. -/
theorem claim_C9_witness :
    history_line 2 (Json.obj [("action", Json.str "swipe"), ("reason", Json.str "scroll")])
      = Except.ok "Step 3: swipe - scroll" :=
  claim_C9_amended.2.2.1 2 "swipe" "scroll" (by decide) (by decide)

/-- Claim C10: the action history maintained by the loop never contains
an entry whose action tag is done, because executing a done decision
exits the process inside the executor, before the append and settle
delay of that step. -/
theorem claim_C10 (env : Env) (d : DecideFun) (goal : String) (n : Nat) :
    ∀ j ∈ (run_agent env d goal n).2.2, j.get "action" ≠ some (Json.str "done") := by
  apply loop_no_done env d goal n [] 0
  intro j hj
  cases hj

/-- Claim C10, witness: the invariant evaluated on a concrete one-step
run whose final history is the singleton tap decision. -/
theorem claim_C10_witness : tapDecision.get "action" ≠ some (Json.str "done") :=
  claim_C10 envStopRequested alwaysTap "g" 1 tapDecision
    (show tapDecision ∈ [tapDecision] from List.mem_singleton.mpr rfl)
